import Mathlib

/-!
Verification development for the DiskUsageMonitor repository (src/dum.py and
the split module files src/disk_analyzer.py, src/directory_handler.py,
src/config_loader.py).  Python strings are modelled as lists of characters,
Python integers as `Int`/`Nat` (they are unbounded), filesystem state as
explicit inductive data, and exceptions as `Except`.  Floating-point
rendering of sizes (`{x:0.2f}`) and local-time datetime rendering are
abstracted as explicit rendering-function parameters: no claim depends on
the rendered digits, only on the surrounding descriptor syntax.
-/

/-- A Python `str` value, modelled as its list of characters. -/
abbrev PyStr := List Char

/-- Fuelled worker for Python `str.split(sep)` with non-empty separator
`s0 :: st`: scan left to right; whenever the separator is a prefix of the
remaining input, cut a segment and continue after the separator.  The fuel
only serves to make the recursion structural; any fuel at least the length
of the input gives the same answer (`pySplitF_fuel`). -/
def pySplitF (s0 : Char) (st : PyStr) : Nat → PyStr → List PyStr
  | _, [] => [[]]
  | 0, s => [s]
  | fuel + 1, c :: rest =>
    if (s0 :: st).isPrefixOf (c :: rest) then
      [] :: pySplitF s0 st fuel ((c :: rest).drop (s0 :: st).length)
    else
      match pySplitF s0 st fuel rest with
      | [] => [[c]]
      | g :: gs => (c :: g) :: gs

/-- Python `str.split(sep)` for a non-empty separator. -/
def pySplit (s0 : Char) (st : PyStr) (s : PyStr) : List PyStr :=
  pySplitF s0 st s.length s

/-- Python `str.split(sep)`.  (Python raises on an empty separator; the
source only ever splits on `": "`, `", "` and `"/"`.) -/
def pySplitOn (sep : PyStr) (s : PyStr) : List PyStr :=
  match sep with
  | [] => [s]
  | c :: cs => pySplit c cs s

/-- Python `needle in hay` (substring containment). -/
def pyContains (needle : PyStr) : PyStr → Bool
  | [] => needle.isEmpty
  | c :: rest => needle.isPrefixOf (c :: rest) || pyContains needle rest

/-- `'/'.join(parts)` a.k.a. `sep.join` with a one-character separator. -/
def joinSlash : List PyStr → PyStr
  | [] => []
  | [x] => x
  | x :: y :: xs => x ++ ['/'] ++ joinSlash (y :: xs)

/-- `os.path.join(a, b)` on POSIX for two components. -/
def pyJoin (a b : PyStr) : PyStr :=
  if ['/'].isPrefixOf b then b
  else if a == [] || a.getLast? == some '/' then a ++ b
  else a ++ ['/'] ++ b

/-- The component `".."` used by `normpath`. -/
def dotdot : PyStr := "..".data

/-- The component loop of `posixpath.normpath`: drop `""` and `"."`,
resolve `".."` against the accumulated components. -/
def normpathAux (initialSlashes : Nat) : List PyStr → List PyStr → List PyStr
  | newComps, [] => newComps
  | newComps, comp :: rest =>
    if comp == [] || comp == ['.'] then
      normpathAux initialSlashes newComps rest
    else if !(comp == dotdot) || (initialSlashes == 0 && newComps.isEmpty)
        || (!newComps.isEmpty && newComps.getLastD [] == dotdot) then
      normpathAux initialSlashes (newComps ++ [comp]) rest
    else if !newComps.isEmpty then
      normpathAux initialSlashes newComps.dropLast rest
    else
      normpathAux initialSlashes newComps rest

/-- `os.path.normpath` on POSIX, as in CPython's `posixpath.normpath`. -/
def normpath (path : PyStr) : PyStr :=
  if path == [] then ['.']
  else
    let initialSlashes : Nat :=
      if ['/', '/'].isPrefixOf path && !(['/', '/', '/'].isPrefixOf path) then 2
      else if ['/'].isPrefixOf path then 1
      else 0
    let comps := pySplitOn ['/'] path
    let newComps := normpathAux initialSlashes [] comps
    let joined := List.replicate initialSlashes '/' ++ joinSlash newComps
    if joined == [] then ['.'] else joined

/-- One inventory entry as collected by `DirectoryHandler.gather_files_data`:
the `'item'` tuple `(path, size-in-bytes, mtime)`. -/
structure Entry where
  path : PyStr
  size : Nat
  mtime : Int
deriving DecidableEq, Repr

/-- The separator `": "` used by `format_items` and `delete_files`. -/
def colonSep : PyStr := [':', ' ']

/-- The separator `", "` used by `format_items` and `delete_files`. -/
def commaSep : PyStr := [',', ' ']

/-- The label `'No_label'` assigned when no watched root matches. -/
def noLabel : PyStr := "No_label".data

/-- The label-assignment loop of `DiskAnalyzer.format_items`
(src/dum.py lines 126-130): the first `(dir_name, assigned_label)` pair of
the label mapping with `dir_name in path` wins; `'No_label'` otherwise.
Python dicts iterate in insertion order, so the mapping is a list of pairs. -/
def assignLabel (labelMapping : List (PyStr × PyStr)) (path : PyStr) : PyStr :=
  match labelMapping with
  | [] => noLabel
  | (dirName, assignedLabel) :: rest =>
    if pyContains dirName path then assignedLabel
    else assignLabel rest path

/-- `DiskAnalyzer.format_items` (src/dum.py lines 122-135).
`renderSize` abstracts `f'{self.bytes_to_gib(size):0.2f}'` (floating-point
formatting) and `renderTime` abstracts
`datetime.fromtimestamp(mtime).strftime(...)` (local-time rendering); the
claims depend only on the shape of the message, never on those digits. -/
def format_items (labelMapping : List (PyStr × PyStr))
    (renderSize : Nat → PyStr) (renderTime : Int → PyStr) (item : Entry) : PyStr :=
  let path := normpath item.path
  let pathSplit := pySplitOn ['/'] path
  let label := assignLabel labelMapping path
  label ++ colonSep ++ pathSplit.getLastD []
    ++ ", Size: ".data ++ renderSize item.size
    ++ " GiB, Modified: ".data ++ renderTime item.mtime

/-- The comparison key of `sorted(all_items, key=lambda x: x['item'][2])`. -/
def mtimeLe (a b : Entry) : Prop := a.mtime ≤ b.mtime

instance : DecidableRel mtimeLe := fun a b => Int.decLe a.mtime b.mtime

instance : IsTotal Entry mtimeLe := ⟨fun a b => Int.le_total a.mtime b.mtime⟩

instance : IsTrans Entry mtimeLe := ⟨fun _ _ _ h h' => Int.le_trans h h'⟩

/-- `sorted(all_items, key=lambda x: x['item'][2])`: Python's sort is
stable and keyed on the mtime, which insertion sort on `mtimeLe` models
(a stable sort for a total preorder is unique, so this is extensionally
the Timsort the source runs). -/
def sortByMtime (l : List Entry) : List Entry :=
  List.insertionSort mtimeLe l

/-- The selection loop of `DiskAnalyzer.analyze` (src/dum.py lines 153-162):
accumulate sizes over the sorted inventory, append each formatted message,
and break once the running total reaches the deficit. -/
def selectItems (labelMapping : List (PyStr × PyStr))
    (renderSize : Nat → PyStr) (renderTime : Int → PyStr)
    (deficit : Int) : List Entry → Int → List PyStr
  | [], _ => []
  | item :: rest, totalSize =>
    let totalSize' := totalSize + (item.size : Int)
    let message := format_items labelMapping renderSize renderTime item
    if deficit ≤ totalSize' then [message]
    else message :: selectItems labelMapping renderSize renderTime deficit rest totalSize'

/-- `all_items = []; for dir_path in self.dirs: all_items.extend(...)`
(src/dum.py lines 147-150), with the per-directory inventory collection
abstracted as `gather`. -/
def gatherAll (gather : PyStr → List Entry) (dirs : List PyStr) : List Entry :=
  dirs.foldl (fun acc dirPath => acc ++ gather dirPath) []

/-- `DiskAnalyzer.analyze` (src/dum.py lines 137-163): return `[]` at once
when free space already meets the threshold; otherwise gather the
inventory of every watched directory, sort it by mtime and run the
selection loop against the deficit `threshold - freeSpace`. -/
def analyze (gather : PyStr → List Entry) (dirs : List PyStr)
    (labelMapping : List (PyStr × PyStr))
    (renderSize : Nat → PyStr) (renderTime : Int → PyStr)
    (freeSpace threshold : Int) : List PyStr :=
  if freeSpace ≥ threshold then []
  else
    let allItems := gatherAll gather dirs
    let sortedItems := sortByMtime allItems
    selectItems labelMapping renderSize renderTime (threshold - freeSpace) sortedItems 0

/-- `DiskAnalyzer.gib_to_bytes` (src/dum.py lines 96-102). -/
def gib_to_bytes (gib : Int) : Int := gib * (1024 ^ 3)

/-- The entries the selection loop walks over, without the formatting:
a proof-side companion of `selectItems`. -/
def selectEntries (deficit : Int) : List Entry → Int → List Entry
  | [], _ => []
  | item :: rest, totalSize =>
    let totalSize' := totalSize + (item.size : Int)
    if deficit ≤ totalSize' then [item]
    else item :: selectEntries deficit rest totalSize'

/-- Total size of a list of entries, as the Python `int` it accumulates to. -/
def sumSizes (l : List Entry) : Int :=
  (l.map (fun e => (e.size : Int))).sum

/-- A node of the filesystem tree under a watched root: a regular file
with its byte size and mtime, or a directory with its own mtime and its
children.  (Symlinks and special files are implementation-defined in the
spec and the `scandir` loop skips them, so the model carries the two
relevant kinds.) -/
inductive FSNode where
  | file (name : PyStr) (size : Nat) (mtime : Int)
  | dir (name : PyStr) (mtime : Int) (children : List FSNode)

/-- Sum of the sizes of the regular files directly inside a directory's
child list: one `os.walk` tuple's `for f in filenames` contribution. -/
def immediateFilesSum (children : List FSNode) : Nat :=
  children.foldr
    (fun c acc => match c with
      | .file _ size _ => size + acc
      | .dir _ _ _ => acc)
    0

mutual
/-- The `os.walk` recursion of `gather_files_data` (src/dum.py lines
77-81), contribution of one visited node: a file path yields no walk
tuples; a directory contributes its immediate files plus the walk of its
children. -/
def walkSumNode : FSNode → Nat
  | .file _ _ _ => 0
  | .dir _ _ children => immediateFilesSum children + walkSumChildren children

/-- The `os.walk` recursion over a list of sibling nodes. -/
def walkSumChildren : List FSNode → Nat
  | [] => 0
  | c :: rest => walkSumNode c + walkSumChildren rest
end

/-- Total size `os.walk` computes for a directory entry whose children
are `cs` (the top `(dirpath, dirnames, filenames)` tuple plus the walk of
the children). -/
def walkSumDir (cs : List FSNode) : Nat :=
  immediateFilesSum cs + walkSumChildren cs

mutual
/-- Spec-side definition (`spec.md` section 3, `sizeBytes`): the size of a
node counting every regular file of its subtree. -/
def filesSumNode : FSNode → Nat
  | .file _ size _ => size
  | .dir _ _ children => filesSumChildren children

/-- Spec-side definition: the sum of byte lengths of every regular file
found by recursive traversal of sibling subtrees, at any nesting depth. -/
def filesSumChildren : List FSNode → Nat
  | [] => 0
  | c :: rest => filesSumNode c + filesSumChildren rest
end

/-- One iteration of the `os.scandir` loop of
`DirectoryHandler.gather_files_data` (src/dum.py lines 71-82): a file
yields `(path, st_size, st_mtime)`, a directory yields
`(path, walked total, its own st_mtime)`. -/
def gatherChild (rootPath : PyStr) : FSNode → Entry
  | .file name size mtime => ⟨pyJoin rootPath name, size, mtime⟩
  | .dir name mtime children => ⟨pyJoin rootPath name, walkSumDir children, mtime⟩

/-- `DirectoryHandler.gather_files_data` (src/dum.py lines 61-83) over
the immediate children of the watched root. -/
def gather_files_data (rootPath : PyStr) (children : List FSNode) : List Entry :=
  children.map (gatherChild rootPath)

/-- Python truthiness of a configuration value: absent (`None`) and the
empty string are falsy. -/
def pyTruthy : Option PyStr → Bool
  | none => false
  | some s => !s.isEmpty

/-- The info message logged by `validate_gotify_config` when neither
Gotify key is provided. -/
def gotifyNotProvidedMsg : PyStr :=
  "Gotify URL and Token are not provided. Notifications will not be sent.".data

/-- The `ValueError` message of both Gotify validators. -/
def gotifyMismatchMsg : PyStr :=
  ("It appears either `GotifyURL` or `GotifyToken` is specified but not the other. "
    ++ "Both must be specified or both must be empty.").data

/-- `ConfigLoader.validate_gotify_config` (src/dum.py lines 273-281).
The first `if` only logs (captured in the returned log list) and does not
return, so control always reaches the second `if`, which raises whenever
at least one of the two values is falsy - including the case where both
are absent. -/
def validate_gotify_config (gotifyUrl gotifyToken : Option PyStr) :
    List PyStr × Except PyStr Unit :=
  let logs :=
    if !pyTruthy gotifyUrl && !pyTruthy gotifyToken then [gotifyNotProvidedMsg] else []
  if !pyTruthy gotifyUrl || !pyTruthy gotifyToken then (logs, .error gotifyMismatchMsg)
  else (logs, .ok ())

/-- `ConfigLoader._validate_gotify` (src/src/config_loader.py lines
81-93).  `ok (some b)` models `return b`, `ok none` the implicit `return
None` at the end of the function body.  The second branch's condition
`not all((gotify_url, gotify_token))` is the negation of the first's, so
the `else` arm holding the `raise` is unreachable. -/
def validate_gotify (gotifyUrl gotifyToken : Option PyStr) :
    Except PyStr (Option Bool) :=
  if pyTruthy gotifyUrl && pyTruthy gotifyToken then .ok (some true)
  else if !(pyTruthy gotifyUrl && pyTruthy gotifyToken) then .ok (some false)
  else if !pyTruthy gotifyUrl || !pyTruthy gotifyToken then .error gotifyMismatchMsg
  else .ok none

/-- The parsing step of `DiskAnalyzer.delete_files` (src/dum.py lines
173-175): `label = s.split(': ')[0]`, `name = s.split(': ')[1].split(', ')[0]`.
Index `[1]` raises `IndexError` when the split has fewer than two parts,
modelled by `none`; index `[0]` always exists since `split` never returns
an empty list. -/
def parseDescriptor (s : PyStr) : Option (PyStr × PyStr) :=
  match pySplitOn colonSep s with
  | label :: labelRemoved :: _ => some (label, (pySplitOn commaSep labelRemoved).headD [])
  | _ => none

/-- `'Deleted: {file_path}'` (src/dum.py lines 183 and 187). -/
def deletedMsg (item : PyStr) : PyStr := "Deleted: ".data ++ item

/-- `'Unrecognized path: {working_dir}'` (src/dum.py line 190). -/
def unrecognizedMsg (workingDir : PyStr) : PyStr :=
  "Unrecognized path: ".data ++ workingDir

/-- `'Failed to delete {file_path}: {err}'` (src/dum.py line 193). -/
def failedMsg (item err : PyStr) : PyStr :=
  "Failed to delete ".data ++ item ++ colonSep ++ err

/-- The `IndexError` a malformed descriptor raises outside the per-item
`try` block of `delete_files`. -/
def indexErrorMsg : PyStr := "IndexError".data

/-- `'Disk usage is below threshold. No files will be deleted.'`
(src/dum.py line 391). -/
def belowThresholdMsg : PyStr :=
  "Disk usage is below threshold. No files will be deleted.".data

/-- Kind of a filesystem object visible to the Deleter. -/
inductive PathKind where
  | file
  | dir
deriving DecidableEq, Repr

/-- A filesystem object as the Deleter sees it: its path, its kind and
whether an attempt to remove it raises (permission error etc.). -/
structure FSObj where
  path : PyStr
  kind : PathKind
  removeFails : Bool
deriving DecidableEq, Repr

/-- Deleter-side filesystem state: the set of existing objects. -/
abbrev DelFS := List FSObj

/-- `os.path.isfile` over the modelled state. -/
def isfile (fs : DelFS) (p : PyStr) : Bool :=
  fs.any (fun o => o.path == p && o.kind == PathKind.file)

/-- `os.path.isdir` over the modelled state. -/
def isdir (fs : DelFS) (p : PyStr) : Bool :=
  fs.any (fun o => o.path == p && o.kind == PathKind.dir)

/-- Whether `q` equals `p` or lies strictly below the directory `p`. -/
def underPath (p q : PyStr) : Bool :=
  q == p || (p ++ ['/']).isPrefixOf q

/-- `os.remove`: a single `unlink` syscall; it either removes the object
at that path or raises leaving it in place.  A raising call carries the
(here: unchanged) state the caller continues with. -/
def osRemove (fs : DelFS) (p : PyStr) : Except (PyStr × DelFS) DelFS :=
  if fs.any (fun o => o.path == p && o.removeFails) then .error ("OSError".data, fs)
  else .ok (fs.filter (fun o => !(o.path == p)))

/-- Worker for `shutil.rmtree` over the subtree of `p`: remove the
objects under `p` in state order and raise at the first one whose removal
fails.  The error carries the partial state - removals committed before
the failure stay committed, the failing object and everything after it
survive - as `rmtree` without an `onerror` handler behaves. -/
def rmtreeGo (p : PyStr) : DelFS → Except (PyStr × DelFS) DelFS
  | [] => .ok []
  | o :: rest =>
    if underPath p o.path then
      if o.removeFails then .error ("OSError".data, o :: rest)
      else rmtreeGo p rest
    else
      match rmtreeGo p rest with
      | .ok fs2 => .ok (o :: fs2)
      | .error (e, fs2) => .error (e, o :: fs2)

/-- `shutil.rmtree` on the modelled state: recursive removal with
partial-deletion semantics on failure (see `rmtreeGo`). -/
def shutilRmtree (fs : DelFS) (p : PyStr) : Except (PyStr × DelFS) DelFS :=
  rmtreeGo p fs

/-- The inner `for dir_path, labels in self.label_mapping.items()` loop of
`DiskAnalyzer.delete_files` (src/dum.py lines 177-190), which runs inside
the per-item `try`: on the first pair whose label matches, join the root
with the parsed name; remove a file or a directory tree and `break`; if
the joined path is neither, log `Unrecognized path` and keep iterating.
An exception from a removal escapes as `.error` together with the state
the interrupted removal left behind (to be caught by the per-item
handler). -/
def deleteLoop (fs : DelFS) (label name item : PyStr) :
    List (PyStr × PyStr) → Except (PyStr × DelFS) (DelFS × List PyStr)
  | [] => .ok (fs, [])
  | (dirPath, assignedLabel) :: rest =>
    if label == assignedLabel then
      let workingDir := pyJoin dirPath name
      if isfile fs workingDir then
        match osRemove fs workingDir with
        | .error ed => .error ed
        | .ok fs2 => .ok (fs2, [deletedMsg item])
      else if isdir fs workingDir then
        match shutilRmtree fs workingDir with
        | .error ed => .error ed
        | .ok fs2 => .ok (fs2, [deletedMsg item])
      else
        match deleteLoop fs label name item rest with
        | .error ed => .error ed
        | .ok (fs2, logs) => .ok (fs2, unrecognizedMsg workingDir :: logs)
    else deleteLoop fs label name item rest

/-- `DiskAnalyzer.delete_files` (src/dum.py lines 165-193): parse each
descriptor (outside the `try`: a malformed one raises out of the whole
batch), then run the label-map loop inside `try`; a raising removal is
logged as `Failed to delete` and the `for` moves on to the next item over
whatever state the interrupted removal left behind. -/
def delete_files (labelMapping : List (PyStr × PyStr)) :
    DelFS → List PyStr → Except PyStr (DelFS × List PyStr)
  | fs, [] => .ok (fs, [])
  | fs, item :: rest =>
    match parseDescriptor item with
    | none => .error indexErrorMsg
    | some (label, name) =>
      match deleteLoop fs label name item labelMapping with
      | .ok (fs2, logs) =>
        match delete_files labelMapping fs2 rest with
        | .error e => .error e
        | .ok (fsEnd, logsRest) => .ok (fsEnd, logs ++ logsRest)
      | .error (e, fsAfter) =>
        match delete_files labelMapping fsAfter rest with
        | .error e2 => .error e2
        | .ok (fsEnd, logsRest) => .ok (fsEnd, failedMsg item e :: logsRest)

/-- `'Gotify not configured, no notification sent.'` (src/dum.py line 400). -/
def gotifyNotConfiguredMsg : PyStr :=
  "Gotify not configured, no notification sent.".data

/-- The `HTTP error occurred` log of `send_notification` (src/dum.py
line 351). -/
def httpErrorMsg : PyStr := "HTTP error occurred".data

/-- `send_notification` (src/dum.py lines 323-353).  `transport` abstracts
the single `requests.post` call: `.error e` is a raising request
(connection or DNS failure) - the call sits OUTSIDE the `try`, so the
exception propagates to the caller - while `.ok false` is a delivered
response with a non-success status, whose `raise_for_status` error is
caught by the `try` inside the function and only logged; `.ok true` is a
successful delivery. -/
def send_notification (transport : Except PyStr Bool) : Except PyStr (List PyStr) :=
  match transport with
  | .error e => .error e
  | .ok true => .ok []
  | .ok false => .ok [httpErrorMsg]

/-- The tail of `main` (src/dum.py lines 386-407) from `analyze()` on:
an empty plan logs the below-threshold message and exits 0; otherwise a
non-dry run executes `delete_files` and, when both Gotify values are
truthy, `send_notification` inside the same `try` - an exception escaping
either (a malformed descriptor, or a raising `requests.post`) reaches
`except Exception` and exits 1, anything else exits 0.  A dry run only
logs (falling off `main`, `sys.exit(None)` is exit status 0).  The
remaining info logs are elided. -/
def mainAfterAnalyze (labelMapping : List (PyStr × PyStr)) (fs : DelFS)
    (processedItems : List PyStr) (dryRun : Bool)
    (gotifyUrl gotifyToken : Option PyStr) (transport : Except PyStr Bool) :
    Nat × List PyStr :=
  if processedItems.isEmpty then (0, [belowThresholdMsg])
  else if !dryRun then
    match delete_files labelMapping fs processedItems with
    | .ok (_, logs) =>
      if pyTruthy gotifyUrl && pyTruthy gotifyToken then
        match send_notification transport with
        | .ok notifyLogs => (0, logs ++ notifyLogs)
        | .error _ => (1, logs)
      else (0, logs ++ [gotifyNotConfiguredMsg])
    | .error _ => (1, [])
  else (0, [])

/-- The root the Deleter resolves a parsed label to: the first pair of the
label mapping carrying that label (src/dum.py lines 177-179). -/
def findDirByLabel (labelMapping : List (PyStr × PyStr)) (label : PyStr) : Option PyStr :=
  match labelMapping with
  | [] => none
  | (dirPath, assignedLabel) :: rest =>
    if label == assignedLabel then some dirPath
    else findDirByLabel rest label

/-- The path the Deleter would operate on for a parsed `(label, name)`
pair: `os.path.join` of the first label-matching root with the name. -/
def resolveTarget (labelMapping : List (PyStr × PyStr)) (label name : PyStr) : Option PyStr :=
  (findDirByLabel labelMapping label).map (fun dirPath => pyJoin dirPath name)

/-- Shared concrete fixture: three entries of sizes 1, 2, 3 bytes with
mtimes oldest-to-newest, under one watched root `/d` labelled `D`. -/
def wGather : PyStr → List Entry :=
  fun _ => [⟨"/d/a".data, 1, 1⟩, ⟨"/d/b".data, 2, 2⟩, ⟨"/d/c".data, 3, 3⟩]

/-- Shared concrete fixture: the watched directory list. -/
def wDirs : List PyStr := ["/d".data]

/-- Shared concrete fixture: the label mapping built by `main`. -/
def wMap : List (PyStr × PyStr) := [("/d".data, "D".data)]

/-- Shared concrete fixture: a rendering of sizes (the claims never depend
on the digits). -/
def wSize : Nat → PyStr := fun _ => "s".data

/-- Shared concrete fixture: a rendering of mtimes. -/
def wTime : Int → PyStr := fun _ => "t".data

/-- Deleter fixture: one watched root `/d` holding a single 5-byte file
`/d/x` of mtime 0. -/
def wGather9 : PyStr → List Entry := fun _ => [⟨"/d/x".data, 5, 0⟩]

/-- Deleter fixture: the file `/d/x` exists but its removal raises. -/
def wFS9 : DelFS := [⟨"/d/x".data, PathKind.file, true⟩]

/-- Deleter fixture: the plan `analyze` produces for `wGather9` with free
space 0 and threshold 3. -/
def wItems9 : List PyStr := ["D: x, Size: s GiB, Modified: t".data]

/-- Fixture for the empty-inventory scenario: gathering yields nothing. -/
def wGatherE : PyStr → List Entry := fun _ => []

example : colonSep = ": ".data := rfl

example : commaSep = ", ".data := rfl

example : pySplitOn colonSep "Data: a, b, Size: 0.00".data
    = ["Data".data, "a, b, Size".data, "0.00".data] := by decide

example : normpath "/data//x/./y/../z".data = "/data/x/z".data := by decide

example : pyJoin "/data".data "a".data = "/data/a".data := by decide

example :
    analyze (fun _ => [⟨"/d/a".data, 1, 1⟩, ⟨"/d/b".data, 2, 2⟩, ⟨"/d/c".data, 3, 3⟩])
      ["/d".data] [("/d".data, "D".data)]
      (fun _ => "s".data) (fun _ => "t".data) 0 2
    = ["D: a, Size: s GiB, Modified: t".data, "D: b, Size: s GiB, Modified: t".data] := by
  decide

example :
    filesSumChildren
      [FSNode.file "x".data 3 1,
       FSNode.dir "deep".data 9 [FSNode.file "y".data 4 2],
       FSNode.dir "empty".data 11 []] = 7 := rfl

theorem selectItems_eq_map (labelMapping : List (PyStr × PyStr))
    (renderSize : Nat → PyStr) (renderTime : Int → PyStr) (deficit : Int) :
    ∀ (l : List Entry) (t : Int),
      selectItems labelMapping renderSize renderTime deficit l t
        = (selectEntries deficit l t).map (format_items labelMapping renderSize renderTime) := by
  intro l
  induction l with
  | nil => intro t; rfl
  | cons item rest ih =>
    intro t
    simp only [selectItems, selectEntries]
    split
    · rfl
    · simp [ih]

theorem selectEntries_prefix_of_input (deficit : Int) :
    ∀ (l : List Entry) (t : Int), selectEntries deficit l t <+: l := by
  intro l
  induction l with
  | nil => intro t; simp [selectEntries]
  | cons item rest ih =>
    intro t
    simp only [selectEntries]
    split
    · exact ⟨rest, rfl⟩
    · obtain ⟨tl, htl⟩ := ih (t + (item.size : Int))
      exact ⟨tl, by rw [List.cons_append, htl]⟩

theorem selectEntries_ne_nil (deficit : Int) (item : Entry) (rest : List Entry) (t : Int) :
    selectEntries deficit (item :: rest) t ≠ [] := by
  simp only [selectEntries]
  split <;> simp

theorem selectEntries_dropLast_sum (deficit : Int) :
    ∀ (l : List Entry) (t : Int), t < deficit →
      t + sumSizes (selectEntries deficit l t).dropLast < deficit := by
  intro l
  induction l with
  | nil => intro t ht; simpa [selectEntries, sumSizes] using ht
  | cons item rest ih =>
    intro t ht
    simp only [selectEntries]
    split
    · simpa [sumSizes] using ht
    · rename_i hlt
      push_neg at hlt
      rcases h : selectEntries deficit rest (t + (item.size : Int)) with _ | ⟨e, es⟩
      · simpa [h, sumSizes] using ht
      · have := ih (t + (item.size : Int)) hlt
        rw [h] at this
        simpa [sumSizes, List.dropLast, add_assoc] using this

theorem selectEntries_sum_ge (deficit : Int) :
    ∀ (l : List Entry) (t : Int), deficit ≤ t + sumSizes l →
      deficit ≤ t + sumSizes (selectEntries deficit l t) := by
  intro l
  induction l with
  | nil => intro t ht; simpa [selectEntries, sumSizes] using ht
  | cons item rest ih =>
    intro t ht
    simp only [selectEntries]
    split
    · rename_i hge
      simpa [sumSizes] using hge
    · have := ih (t + (item.size : Int)) (by simpa [sumSizes, add_assoc] using ht)
      simpa [sumSizes, add_assoc] using this

theorem selectEntries_all (deficit : Int) :
    ∀ (l : List Entry) (t : Int), t + sumSizes l < deficit →
      selectEntries deficit l t = l := by
  intro l
  induction l with
  | nil => intro t _; rfl
  | cons item rest ih =>
    intro t ht
    have hsum : t + (item.size : Int) + sumSizes rest < deficit := by
      simpa [sumSizes, add_assoc] using ht
    have hlt : ¬ deficit ≤ t + (item.size : Int) := by
      have hrest : 0 ≤ sumSizes rest := by
        simp only [sumSizes]
        refine List.sum_nonneg ?_
        intro x hx
        simp only [List.mem_map] at hx
        obtain ⟨e, _, rfl⟩ := hx
        exact Int.natCast_nonneg e.size
      omega
    simp only [selectEntries]
    rw [if_neg hlt, ih _ hsum]

theorem sortByMtime_perm (l : List Entry) : List.Perm (sortByMtime l) l :=
  List.perm_insertionSort mtimeLe l

theorem sumSizes_sortByMtime (l : List Entry) : sumSizes (sortByMtime l) = sumSizes l :=
  ((sortByMtime_perm l).map _).sum_eq

theorem orderedInsert_filter_mtime (a : Entry) (t : Int) :
    ∀ l : List Entry,
      (List.orderedInsert mtimeLe a l).filter (fun e => e.mtime == t)
        = if a.mtime == t then a :: l.filter (fun e => e.mtime == t)
          else l.filter (fun e => e.mtime == t) := by
  intro l
  induction l with
  | nil => simp [List.orderedInsert, List.filter_cons]
  | cons b l ih =>
    simp only [List.orderedInsert]
    split
    · simp [List.filter_cons]
    · rename_i hab
      have hba : b.mtime < a.mtime := by
        simpa [mtimeLe, not_le] using hab
      by_cases hat : a.mtime = t
      · have hbt : ¬ b.mtime = t := by omega
        simp [List.filter_cons, hat, hbt, ih]
      · simp [List.filter_cons, hat, ih]

theorem sortByMtime_filter_mtime (t : Int) :
    ∀ l : List Entry,
      (sortByMtime l).filter (fun e => e.mtime == t) = l.filter (fun e => e.mtime == t) := by
  intro l
  induction l with
  | nil => rfl
  | cons a l ih =>
    simp only [sortByMtime, List.insertionSort] at *
    rw [orderedInsert_filter_mtime, ih, List.filter_cons]

/-- C1: with `freeSpace < threshold` and an inventory large enough to meet
the deficit, `DiskAnalyzer.analyze` returns the formatted messages of a
non-empty prefix of the mtime-sorted inventory whose cumulative size
without its last entry stays strictly below the deficit
`threshold - freeSpace` while the cumulative size including the last
(boundary-crossing, included) entry reaches at least the deficit, so
reaching the deficit exactly stops any further selection. -/
theorem analyze_selects_boundary_prefix
    (gather : PyStr → List Entry) (dirs : List PyStr)
    (labelMapping : List (PyStr × PyStr))
    (renderSize : Nat → PyStr) (renderTime : Int → PyStr)
    (freeSpace threshold : Int)
    (hlow : freeSpace < threshold)
    (henough : threshold - freeSpace ≤ sumSizes (gatherAll gather dirs)) :
    ∃ p : List Entry,
      p <+: sortByMtime (gatherAll gather dirs) ∧
      analyze gather dirs labelMapping renderSize renderTime freeSpace threshold
        = p.map (format_items labelMapping renderSize renderTime) ∧
      p ≠ [] ∧
      sumSizes p.dropLast < threshold - freeSpace ∧
      threshold - freeSpace ≤ sumSizes p := by
  have hsorted : threshold - freeSpace ≤ sumSizes (sortByMtime (gatherAll gather dirs)) := by
    rw [sumSizes_sortByMtime]; exact henough
  refine ⟨selectEntries (threshold - freeSpace) (sortByMtime (gatherAll gather dirs)) 0,
    selectEntries_prefix_of_input _ _ _, ?_, ?_, ?_, ?_⟩
  · simp only [analyze]
    rw [if_neg (by omega), selectItems_eq_map]
  · cases hc : sortByMtime (gatherAll gather dirs) with
    | nil =>
      exfalso
      rw [hc] at hsorted
      simp only [sumSizes, List.map_nil, List.sum_nil] at hsorted
      omega
    | cons e es =>
      exact selectEntries_ne_nil _ _ _ _
  · have h := selectEntries_dropLast_sum (threshold - freeSpace)
      (sortByMtime (gatherAll gather dirs)) 0 (by omega)
    omega
  · have h := selectEntries_sum_ge (threshold - freeSpace)
      (sortByMtime (gatherAll gather dirs)) 0 (by omega)
    omega

/-- Witness for `analyze_selects_boundary_prefix` on the 1-2-3 scenario
with free space 0 and threshold 2. -/
theorem analyze_selects_boundary_prefix_witness :
    ((0 : Int) < 2 ∧ (2 : Int) - 0 ≤ sumSizes (gatherAll wGather wDirs)) ∧
    ∃ p : List Entry,
      p <+: sortByMtime (gatherAll wGather wDirs) ∧
      analyze wGather wDirs wMap wSize wTime 0 2
        = p.map (format_items wMap wSize wTime) ∧
      p ≠ [] ∧
      sumSizes p.dropLast < 2 - 0 ∧
      (2 : Int) - 0 ≤ sumSizes p :=
  ⟨⟨by decide, by decide⟩,
    analyze_selects_boundary_prefix wGather wDirs wMap wSize wTime 0 2
      (by decide) (by decide)⟩

/-- C2: when free space is at least the threshold (equality included)
`DiskAnalyzer.analyze` returns `[]` immediately, and the result does not
depend on the gathering function at all, i.e. no inventory gathering
influences (or is needed for) the outcome. -/
theorem analyze_short_circuit_when_free
    (gather : PyStr → List Entry) (dirs : List PyStr)
    (labelMapping : List (PyStr × PyStr))
    (renderSize : Nat → PyStr) (renderTime : Int → PyStr)
    (freeSpace threshold : Int)
    (h : threshold ≤ freeSpace) :
    analyze gather dirs labelMapping renderSize renderTime freeSpace threshold = [] ∧
    ∀ gather2 : PyStr → List Entry,
      analyze gather2 dirs labelMapping renderSize renderTime freeSpace threshold
        = analyze gather dirs labelMapping renderSize renderTime freeSpace threshold := by
  constructor
  · simp [analyze, ge_iff_le, h]
  · intro gather2
    simp [analyze, ge_iff_le, h]

/-- Witness for `analyze_short_circuit_when_free` at exact equality
`freeSpace = threshold = 2`. -/
theorem analyze_short_circuit_when_free_witness :
    ((2 : Int) ≤ 2) ∧
    (analyze wGather wDirs wMap wSize wTime 2 2 = [] ∧
     ∀ gather2 : PyStr → List Entry,
       analyze gather2 wDirs wMap wSize wTime 2 2
         = analyze wGather wDirs wMap wSize wTime 2 2) :=
  ⟨by decide,
    analyze_short_circuit_when_free wGather wDirs wMap wSize wTime 2 2 (by decide)⟩

/-- C3: with `freeSpace < threshold` but a total inventory smaller than
the deficit, `DiskAnalyzer.analyze` returns a descriptor for every entry,
in mtime-sorted (oldest-first) order, and (being a total function whose
equations cover this case) never signals an error for the shortfall. -/
theorem analyze_insufficient_inventory_all
    (gather : PyStr → List Entry) (dirs : List PyStr)
    (labelMapping : List (PyStr × PyStr))
    (renderSize : Nat → PyStr) (renderTime : Int → PyStr)
    (freeSpace threshold : Int)
    (hlow : freeSpace < threshold)
    (hshort : sumSizes (gatherAll gather dirs) < threshold - freeSpace) :
    analyze gather dirs labelMapping renderSize renderTime freeSpace threshold
      = (sortByMtime (gatherAll gather dirs)).map
          (format_items labelMapping renderSize renderTime) ∧
    (analyze gather dirs labelMapping renderSize renderTime freeSpace threshold).length
      = (gatherAll gather dirs).length := by
  have hall : selectEntries (threshold - freeSpace) (sortByMtime (gatherAll gather dirs)) 0
      = sortByMtime (gatherAll gather dirs) := by
    refine selectEntries_all _ _ 0 ?_
    rw [sumSizes_sortByMtime]
    omega
  have h1 : analyze gather dirs labelMapping renderSize renderTime freeSpace threshold
      = (sortByMtime (gatherAll gather dirs)).map
          (format_items labelMapping renderSize renderTime) := by
    simp only [analyze]
    rw [if_neg (by omega), selectItems_eq_map, hall]
  exact ⟨h1, by rw [h1, List.length_map, (sortByMtime_perm _).length_eq]⟩

/-- Witness for `analyze_insufficient_inventory_all`: total inventory 6,
deficit 50. -/
theorem analyze_insufficient_inventory_all_witness :
    ((0 : Int) < 50 ∧ sumSizes (gatherAll wGather wDirs) < 50 - 0) ∧
    (analyze wGather wDirs wMap wSize wTime 0 50
      = (sortByMtime (gatherAll wGather wDirs)).map (format_items wMap wSize wTime) ∧
     (analyze wGather wDirs wMap wSize wTime 0 50).length
      = (gatherAll wGather wDirs).length) :=
  ⟨⟨by decide, by decide⟩,
    analyze_insufficient_inventory_all wGather wDirs wMap wSize wTime 0 50
      (by decide) (by decide)⟩

/-- C4: with `freeSpace < threshold` the returned descriptor sequence is
the image of a prefix of the mtime-sorted inventory, that prefix is
ascending in `modifiedAt`, and the sort is stable: for every mtime value
the entries carrying it keep their input order (their filtered sublist is
unchanged by sorting). -/
theorem analyze_sorted_stable
    (gather : PyStr → List Entry) (dirs : List PyStr)
    (labelMapping : List (PyStr × PyStr))
    (renderSize : Nat → PyStr) (renderTime : Int → PyStr)
    (freeSpace threshold : Int)
    (hlow : freeSpace < threshold) :
    ∃ p : List Entry,
      p <+: sortByMtime (gatherAll gather dirs) ∧
      analyze gather dirs labelMapping renderSize renderTime freeSpace threshold
        = p.map (format_items labelMapping renderSize renderTime) ∧
      List.Pairwise mtimeLe p ∧
      ∀ t : Int,
        (sortByMtime (gatherAll gather dirs)).filter (fun e => e.mtime == t)
          = (gatherAll gather dirs).filter (fun e => e.mtime == t) := by
  have hsorted : List.Pairwise mtimeLe (sortByMtime (gatherAll gather dirs)) :=
    List.sorted_insertionSort mtimeLe (gatherAll gather dirs)
  refine ⟨selectEntries (threshold - freeSpace) (sortByMtime (gatherAll gather dirs)) 0,
    selectEntries_prefix_of_input _ _ _, ?_, ?_, fun t => sortByMtime_filter_mtime t _⟩
  · simp only [analyze]
    rw [if_neg (by omega), selectItems_eq_map]
  · exact List.Pairwise.sublist (selectEntries_prefix_of_input _ _ _).sublist hsorted

/-- Witness for `analyze_sorted_stable` with free space 0, threshold 4. -/
theorem analyze_sorted_stable_witness :
    ((0 : Int) < 4) ∧
    ∃ p : List Entry,
      p <+: sortByMtime (gatherAll wGather wDirs) ∧
      analyze wGather wDirs wMap wSize wTime 0 4
        = p.map (format_items wMap wSize wTime) ∧
      List.Pairwise mtimeLe p ∧
      ∀ t : Int,
        (sortByMtime (gatherAll wGather wDirs)).filter (fun e => e.mtime == t)
          = (gatherAll wGather wDirs).filter (fun e => e.mtime == t) :=
  ⟨by decide, analyze_sorted_stable wGather wDirs wMap wSize wTime 0 4 (by decide)⟩

/-- C6: the label the `format_items` loop assigns is that of the first
pair of the label mapping whose directory path occurs as a substring of
the normalized entry path, and `'No_label'` when no pair's path occurs in
it (`List.find?` gives the first match of a predicate). -/
theorem assignLabel_first_substring_match
    (labelMapping : List (PyStr × PyStr)) (item : Entry) :
    assignLabel labelMapping (normpath item.path)
      = (match labelMapping.find? (fun q => pyContains q.1 (normpath item.path)) with
         | some q => q.2
         | none => noLabel) := by
  induction labelMapping with
  | nil => rfl
  | cons q rest ih =>
    obtain ⟨dirName, assignedLabel⟩ := q
    by_cases h : pyContains dirName (normpath item.path) = true
    · simp [assignLabel, List.find?, h]
    · rw [Bool.not_eq_true] at h
      simp [assignLabel, List.find?, h, ih]

theorem walkSumDir_eq_filesSum : ∀ cs : List FSNode, walkSumDir cs = filesSumChildren cs
  | [] => rfl
  | .file name size mtime :: rest => by
    have ih := walkSumDir_eq_filesSum rest
    simp only [walkSumDir, immediateFilesSum, walkSumChildren, walkSumNode,
      filesSumChildren, filesSumNode, List.foldr] at *
    omega
  | .dir name mtime grandchildren :: rest => by
    have ih1 := walkSumDir_eq_filesSum grandchildren
    have ih2 := walkSumDir_eq_filesSum rest
    simp only [walkSumDir, immediateFilesSum, walkSumChildren, walkSumNode,
      filesSumChildren, filesSumNode, List.foldr] at *
    omega
termination_by cs => sizeOf cs

/-- C7: the Inventory Collector emits exactly one entry per immediate
child; a directory entry's size is the sum of the sizes of all regular
files of its entire subtree (an empty subdirectory contributing 0) and
its mtime is the directory node's own mtime, while a file entry carries
its own size and mtime. -/
theorem gather_one_entry_per_child_sizes (rootPath : PyStr) (children : List FSNode) :
    (gather_files_data rootPath children).length = children.length ∧
    (∀ (i : Nat) (name : PyStr) (mtime : Int) (cs : List FSNode),
      children[i]? = some (.dir name mtime cs) →
      (gather_files_data rootPath children)[i]?
        = some ⟨pyJoin rootPath name, filesSumChildren cs, mtime⟩) ∧
    (∀ (i : Nat) (name : PyStr) (size : Nat) (mtime : Int),
      children[i]? = some (.file name size mtime) →
      (gather_files_data rootPath children)[i]?
        = some ⟨pyJoin rootPath name, size, mtime⟩) ∧
    (∀ (name : PyStr) (mtime : Int),
      (gatherChild rootPath (.dir name mtime [])).size = 0) := by
  refine ⟨by simp [gather_files_data], ?_, ?_, fun name mtime => rfl⟩
  · intro i name mtime cs hi
    simp only [gather_files_data, List.getElem?_map, hi]
    simp [gatherChild, walkSumDir_eq_filesSum]
  · intro i name size mtime hi
    simp [gather_files_data, List.getElem?_map, hi, gatherChild]

/-- Witness for `gather_one_entry_per_child_sizes` on a two-level tree:
the directory child's size is the deep sum 3 + 4 = 7, its mtime the
directory's own 5, and the empty subdirectory contributes 0. -/
theorem gather_one_entry_per_child_sizes_witness :
    ([FSNode.dir "sub".data 5
        [FSNode.file "x".data 3 1,
         FSNode.dir "deep".data 9 [FSNode.file "y".data 4 2],
         FSNode.dir "empty".data 11 []],
      FSNode.file "top".data 6 7][0]?
      = some (FSNode.dir "sub".data 5
          [FSNode.file "x".data 3 1,
           FSNode.dir "deep".data 9 [FSNode.file "y".data 4 2],
           FSNode.dir "empty".data 11 []])) ∧
    (gather_files_data "/d".data
      [FSNode.dir "sub".data 5
        [FSNode.file "x".data 3 1,
         FSNode.dir "deep".data 9 [FSNode.file "y".data 4 2],
         FSNode.dir "empty".data 11 []],
       FSNode.file "top".data 6 7])[0]?
      = some ⟨pyJoin "/d".data "sub".data,
          filesSumChildren
            [FSNode.file "x".data 3 1,
             FSNode.dir "deep".data 9 [FSNode.file "y".data 4 2],
             FSNode.dir "empty".data 11 []], 5⟩ :=
  ⟨rfl,
    (gather_one_entry_per_child_sizes "/d".data
      [FSNode.dir "sub".data 5
        [FSNode.file "x".data 3 1,
         FSNode.dir "deep".data 9 [FSNode.file "y".data 4 2],
         FSNode.dir "empty".data 11 []],
       FSNode.file "top".data 6 7]).2.1 0 "sub".data 5
      [FSNode.file "x".data 3 1,
       FSNode.dir "deep".data 9 [FSNode.file "y".data 4 2],
       FSNode.dir "empty".data 11 []] rfl⟩

/-- C8 (code bug): the dum.py validator rejects the both-absent
configuration (after logging that notifications will simply not be sent,
and despite its own error message saying both may be empty), while the
config_loader.py validator accepts asymmetric presence (URL set, token
absent) without an error; both-present is accepted by both.  The claim's
accept/reject behaviour matches the code's own messages, not the code. -/
theorem gotify_validation_divergence :
    validate_gotify_config none none
      = ([gotifyNotProvidedMsg], .error gotifyMismatchMsg) ∧
    validate_gotify (some "http://gotify".data) none = .ok (some false) ∧
    validate_gotify none (some "token".data) = .ok (some false) ∧
    validate_gotify_config (some "http://gotify".data) none
      = ([], .error gotifyMismatchMsg) ∧
    validate_gotify_config (some "http://gotify".data) (some "token".data)
      = ([], .ok ()) ∧
    validate_gotify (some "http://gotify".data) (some "token".data) = .ok (some true) ∧
    validate_gotify none none = .ok (some false) := by
  refine ⟨rfl, rfl, rfl, rfl, rfl, rfl, rfl⟩

theorem pySplitF_fuel (s0 : Char) (st : PyStr) :
    ∀ (fuel fuel' : Nat) (s : PyStr), s.length ≤ fuel → s.length ≤ fuel' →
      pySplitF s0 st fuel s = pySplitF s0 st fuel' s := by
  intro fuel
  induction fuel with
  | zero =>
    intro fuel' s hs _
    cases s with
    | nil => cases fuel' <;> rfl
    | cons c r => simp at hs
  | succ f ih =>
    intro fuel' s hs hs'
    cases s with
    | nil => cases fuel' <;> rfl
    | cons c r =>
      cases fuel' with
      | zero => simp at hs'
      | succ f' =>
        simp only [pySplitF]
        split
        · have h1 : ((c :: r).drop (s0 :: st).length).length ≤ f := by
            simp only [List.length_drop, List.length_cons]
            simp only [List.length_cons] at hs
            omega
          have h2 : ((c :: r).drop (s0 :: st).length).length ≤ f' := by
            simp only [List.length_drop, List.length_cons]
            simp only [List.length_cons] at hs'
            omega
          rw [ih f' _ h1 h2]
        · have h1 : r.length ≤ f := by
            simp only [List.length_cons] at hs
            omega
          have h2 : r.length ≤ f' := by
            simp only [List.length_cons] at hs'
            omega
          rw [ih f' r h1 h2]

theorem pySplitF_ne_nil (s0 : Char) (st : PyStr) (fuel : Nat) (s : PyStr) :
    pySplitF s0 st fuel s ≠ [] := by
  cases s with
  | nil => cases fuel <;> simp [pySplitF]
  | cons c r =>
    cases fuel with
    | zero => simp [pySplitF]
    | succ f =>
      simp only [pySplitF]
      split
      · simp
      · split <;> simp

theorem pyContains_of_isPrefixOf {needle hay : PyStr} (h : needle.isPrefixOf hay = true) :
    pyContains needle hay = true := by
  cases hay with
  | nil =>
    cases needle with
    | nil => rfl
    | cons x xs => simp at h
  | cons c r => simp [pyContains, h]

theorem pyContains_cons_false {needle : PyStr} {c : Char} {hay : PyStr}
    (h : pyContains needle (c :: hay) = false) : pyContains needle hay = false := by
  simp only [pyContains, Bool.or_eq_false_iff] at h
  exact h.2

theorem pySplit_boundary (s0 : Char) (st : PyStr) :
    ∀ (a b : PyStr),
      pyContains (s0 :: st) (a ++ (s0 :: st).dropLast) = false →
      pySplit s0 st (a ++ (s0 :: st) ++ b) = a :: pySplit s0 st b := by
  intro a
  induction a with
  | nil =>
    intro b _
    have hpre : (s0 :: st).isPrefixOf (s0 :: (st ++ b)) = true :=
      List.isPrefixOf_iff_prefix.mpr ⟨b, by simp⟩
    show pySplitF s0 st ((st ++ b).length + 1) (s0 :: (st ++ b)) = [] :: pySplit s0 st b
    simp only [pySplitF, hpre, if_true]
    congr 1
    have hdrop : (s0 :: (st ++ b)).drop (s0 :: st).length = b := List.drop_left (s0 :: st) b
    rw [hdrop]
    exact pySplitF_fuel s0 st _ _ b (by simp) (le_refl _)
  | cons c a2 ih =>
    intro b hclean
    have hclean2 : pyContains (s0 :: st) (a2 ++ (s0 :: st).dropLast) = false :=
      pyContains_cons_false (c := c) hclean
    have hnp : (s0 :: st).isPrefixOf (c :: (a2 ++ (s0 :: st) ++ b)) = false := by
      by_contra hcon
      rw [Bool.not_eq_false] at hcon
      have hp : (s0 :: st) <+: (c :: a2) ++ (s0 :: st) ++ b :=
        List.isPrefixOf_iff_prefix.mp hcon
      have hw : (c :: a2) ++ (s0 :: st).dropLast <+: (c :: a2) ++ (s0 :: st) ++ b := by
        have h2 : (c :: a2) ++ (s0 :: st).dropLast <+: (c :: a2) ++ (s0 :: st) :=
          (List.prefix_append_right_inj (c :: a2)).mpr (List.dropLast_prefix _)
        exact h2.trans (List.prefix_append _ _)
      have hlen : (s0 :: st).length ≤ ((c :: a2) ++ (s0 :: st).dropLast).length := by
        simp [List.length_append]
      have hpw : (s0 :: st) <+: (c :: a2) ++ (s0 :: st).dropLast :=
        List.prefix_of_prefix_length_le hp hw hlen
      have hcontains : pyContains (s0 :: st) ((c :: a2) ++ (s0 :: st).dropLast) = true :=
        pyContains_of_isPrefixOf (List.isPrefixOf_iff_prefix.mpr hpw)
      rw [hcontains] at hclean
      exact Bool.noConfusion hclean
    show pySplitF s0 st ((a2 ++ (s0 :: st) ++ b).length + 1) (c :: (a2 ++ (s0 :: st) ++ b))
      = (c :: a2) :: pySplit s0 st b
    simp only [pySplitF, hnp, Bool.false_eq_true, if_false]
    rw [show pySplitF s0 st (a2 ++ (s0 :: st) ++ b).length (a2 ++ (s0 :: st) ++ b)
        = a2 :: pySplit s0 st b from ih b hclean2]

theorem pySplit_append_length (s0 : Char) (st : PyStr) :
    ∀ (a b : PyStr), 2 ≤ (pySplit s0 st (a ++ (s0 :: st) ++ b)).length := by
  intro a
  induction a with
  | nil =>
    intro b
    have hpre : (s0 :: st).isPrefixOf (s0 :: (st ++ b)) = true :=
      List.isPrefixOf_iff_prefix.mpr ⟨b, by simp⟩
    show 2 ≤ (pySplitF s0 st ((st ++ b).length + 1) (s0 :: (st ++ b))).length
    simp only [pySplitF, hpre, if_true]
    have hne := pySplitF_ne_nil s0 st (st ++ b).length
      ((s0 :: (st ++ b)).drop (s0 :: st).length)
    exact Nat.succ_le_succ (List.length_pos.mpr hne)
  | cons c a2 ih =>
    intro b
    show 2 ≤ (pySplitF s0 st ((a2 ++ (s0 :: st) ++ b).length + 1)
        (c :: (a2 ++ (s0 :: st) ++ b))).length
    simp only [pySplitF]
    split
    · have hne := pySplitF_ne_nil s0 st (a2 ++ (s0 :: st) ++ b).length
        ((c :: (a2 ++ (s0 :: st) ++ b)).drop (s0 :: st).length)
      exact Nat.succ_le_succ (List.length_pos.mpr hne)
    · rcases hsp : pySplitF s0 st (a2 ++ (s0 :: st) ++ b).length (a2 ++ (s0 :: st) ++ b)
        with _ | ⟨g, gs⟩
      · exact absurd hsp (pySplitF_ne_nil s0 st _ _)
      · have h3 : 2 ≤ (g :: gs).length := by
          rw [← hsp]
          exact ih b
        exact h3

theorem pySplit_boundary_assoc (s0 : Char) (st : PyStr) (a b : PyStr)
    (h : pyContains (s0 :: st) (a ++ (s0 :: st).dropLast) = false) :
    pySplit s0 st (a ++ ((s0 :: st) ++ b)) = a :: pySplit s0 st b := by
  rw [← List.append_assoc]
  exact pySplit_boundary s0 st a b h

theorem pySplitOn_colonSep_eq (s : PyStr) : pySplitOn colonSep s = pySplit ':' [' '] s := rfl

theorem pySplitOn_commaSep_eq (s : PyStr) : pySplitOn commaSep s = pySplit ',' [' '] s := rfl

theorem parseDescriptor_format_isSome (labelMapping : List (PyStr × PyStr))
    (renderSize : Nat → PyStr) (renderTime : Int → PyStr) (item : Entry) :
    (parseDescriptor (format_items labelMapping renderSize renderTime item)).isSome = true := by
  have hmsg : format_items labelMapping renderSize renderTime item
      = assignLabel labelMapping (normpath item.path) ++ ((':' :: [' ']) ++
          ((pySplitOn ['/'] (normpath item.path)).getLastD [] ++ (", Size: ".data
            ++ (renderSize item.size ++ (" GiB, Modified: ".data ++ renderTime item.mtime))))) := by
    simp only [format_items, colonSep, List.append_assoc]
  have h2 : 2 ≤ (pySplitOn colonSep (format_items labelMapping renderSize renderTime item)).length := by
    rw [pySplitOn_colonSep_eq, hmsg, ← List.append_assoc]
    exact pySplit_append_length ':' [' '] _ _
  simp only [parseDescriptor]
  rcases hl : pySplitOn colonSep (format_items labelMapping renderSize renderTime item)
    with _ | ⟨x, _ | ⟨y, ys⟩⟩
  · rw [hl] at h2
    simp at h2
  · rw [hl] at h2
    simp at h2
  · simp

theorem analyze_items_parse (gather : PyStr → List Entry) (dirs : List PyStr)
    (labelMapping : List (PyStr × PyStr))
    (renderSize : Nat → PyStr) (renderTime : Int → PyStr)
    (freeSpace threshold : Int) :
    ∀ it ∈ analyze gather dirs labelMapping renderSize renderTime freeSpace threshold,
      (parseDescriptor it).isSome = true := by
  intro it hit
  by_cases h : freeSpace ≥ threshold
  · simp [analyze, h] at hit
  · simp only [analyze, if_neg h] at hit
    rw [selectItems_eq_map] at hit
    simp only [List.mem_map] at hit
    obtain ⟨e, _, rfl⟩ := hit
    exact parseDescriptor_format_isSome labelMapping renderSize renderTime e

theorem delete_files_total (labelMapping : List (PyStr × PyStr)) :
    ∀ (items : List PyStr) (fs : DelFS),
      (∀ it ∈ items, (parseDescriptor it).isSome = true) →
      ∃ r : DelFS × List PyStr, delete_files labelMapping fs items = .ok r := by
  intro items
  induction items with
  | nil =>
    intro fs _
    exact ⟨(fs, []), rfl⟩
  | cons item rest ih =>
    intro fs hall
    have hitem := hall item (List.mem_cons_self item rest)
    rcases hp : parseDescriptor item with _ | ⟨label, name⟩
    · rw [hp] at hitem
      simp at hitem
    · have hrest : ∀ it ∈ rest, (parseDescriptor it).isSome = true :=
        fun it hmem => hall it (List.mem_cons_of_mem _ hmem)
      simp only [delete_files, hp]
      split
      · rename_i fs2 logs hdl
        obtain ⟨⟨fsEnd, logsRest⟩, hr⟩ := ih fs2 hrest
        rw [hr]
        exact ⟨(fsEnd, logs ++ logsRest), rfl⟩
      · rename_i e fsAfter hdl
        obtain ⟨⟨fsEnd, logsRest⟩, hr⟩ := ih fsAfter hrest
        rw [hr]
        exact ⟨(fsEnd, failedMsg item e :: logsRest), rfl⟩

/-- C9: for a batch of planned deletions (descriptors produced by
`analyze`), `delete_files` always returns normally - a per-item failure
(resolved path neither file nor directory, or a raising removal) is
confined to that item - so `main` still returns exit status 0 after
attempting every item, provided the independent Gotify notification step
does not itself raise (`hnotify`: Gotify unconfigured, or the HTTP POST
returns a response; a raising `requests.post` sits outside every `try`
and exits 1 regardless of the deletions - see
`mainAfterAnalyze_transport_error_exit1`).  Moreover a raising removal on
the first item only contributes its `Failed to delete` log and the
remaining items are processed exactly as they would be on their own,
starting from the state the interrupted removal left behind. -/
theorem delete_files_nonfatal
    (gather : PyStr → List Entry) (dirs : List PyStr)
    (labelMapping : List (PyStr × PyStr))
    (renderSize : Nat → PyStr) (renderTime : Int → PyStr)
    (freeSpace threshold : Int) (fs : DelFS) (items : List PyStr)
    (gotifyUrl gotifyToken : Option PyStr) (transport : Except PyStr Bool)
    (hplan : items = analyze gather dirs labelMapping renderSize renderTime freeSpace threshold)
    (hnotify : (pyTruthy gotifyUrl && pyTruthy gotifyToken) = true →
      ∃ b : Bool, transport = .ok b) :
    (∃ r : DelFS × List PyStr,
        delete_files labelMapping fs items = .ok r ∧
        (mainAfterAnalyze labelMapping fs items false gotifyUrl gotifyToken transport).1 = 0) ∧
    (∀ (item : PyStr) (rest : List PyStr) (label name err : PyStr) (fsAfter : DelFS),
      items = item :: rest →
      parseDescriptor item = some (label, name) →
      deleteLoop fs label name item labelMapping = .error (err, fsAfter) →
      ∃ (fsEnd : DelFS) (logsRest : List PyStr),
        delete_files labelMapping fsAfter rest = .ok (fsEnd, logsRest) ∧
        delete_files labelMapping fs items = .ok (fsEnd, failedMsg item err :: logsRest)) := by
  have hparse : ∀ it ∈ items, (parseDescriptor it).isSome = true := by
    rw [hplan]
    exact analyze_items_parse gather dirs labelMapping renderSize renderTime freeSpace threshold
  constructor
  · obtain ⟨⟨fsEnd, logsEnd⟩, hr⟩ := delete_files_total labelMapping items fs hparse
    refine ⟨(fsEnd, logsEnd), hr, ?_⟩
    simp only [mainAfterAnalyze]
    split
    · rfl
    · by_cases hconf : (pyTruthy gotifyUrl && pyTruthy gotifyToken) = true
      · obtain ⟨b, hb⟩ := hnotify hconf
        cases b
        · simp [hr, hconf, hb, send_notification]
        · simp [hr, hconf, hb, send_notification]
      · simp [hr, hconf]
  · intro item rest label name err fsAfter hitems hp hdl
    have hrest : ∀ it ∈ rest, (parseDescriptor it).isSome = true := by
      intro it hmem
      exact hparse it (by rw [hitems]; exact List.mem_cons_of_mem _ hmem)
    obtain ⟨⟨fsEnd, logsRest⟩, hr⟩ := delete_files_total labelMapping rest fsAfter hrest
    refine ⟨fsEnd, logsRest, hr, ?_⟩
    rw [hitems]
    simp only [delete_files, hp, hdl]
    rw [hr]

/-- Witness for `delete_files_nonfatal`: the single planned item resolves
to `/d/x`, whose removal raises; Gotify is unconfigured; the batch still
completes with exit 0. -/
theorem delete_files_nonfatal_witness :
    ((wItems9 = analyze wGather9 wDirs wMap wSize wTime 0 3) ∧
     ((pyTruthy none && pyTruthy none) = true →
       ∃ b : Bool, (Except.ok true : Except PyStr Bool) = .ok b)) ∧
    ((∃ r : DelFS × List PyStr,
        delete_files wMap wFS9 wItems9 = .ok r ∧
        (mainAfterAnalyze wMap wFS9 wItems9 false none none (.ok true)).1 = 0) ∧
    (∀ (item : PyStr) (rest : List PyStr) (label name err : PyStr) (fsAfter : DelFS),
      wItems9 = item :: rest →
      parseDescriptor item = some (label, name) →
      deleteLoop wFS9 label name item wMap = .error (err, fsAfter) →
      ∃ (fsEnd : DelFS) (logsRest : List PyStr),
        delete_files wMap fsAfter rest = .ok (fsEnd, logsRest) ∧
        delete_files wMap wFS9 wItems9 = .ok (fsEnd, failedMsg item err :: logsRest))) :=
  ⟨⟨by decide, fun _ => ⟨true, rfl⟩⟩,
    delete_files_nonfatal wGather9 wDirs wMap wSize wTime 0 3 wFS9 wItems9
      none none (.ok true) (by decide) (fun _ => ⟨true, rfl⟩)⟩

/-- Fidelity of the elided-in-no-claim notification path: when Gotify is
configured, the plan is non-empty and `delete_files` completes, a raising
`requests.post` (it sits outside both the `try` of `send_notification`
and any handler short of `main`'s `except Exception`) makes the run exit
with status 1. -/
theorem mainAfterAnalyze_transport_error_exit1
    (labelMapping : List (PyStr × PyStr)) (fs : DelFS) (items : List PyStr)
    (gotifyUrl gotifyToken : Option PyStr) (e : PyStr)
    (hne : items.isEmpty = false)
    (hconf : (pyTruthy gotifyUrl && pyTruthy gotifyToken) = true)
    (hok : ∃ r : DelFS × List PyStr, delete_files labelMapping fs items = .ok r) :
    (mainAfterAnalyze labelMapping fs items false gotifyUrl gotifyToken (.error e)).1 = 1 := by
  obtain ⟨⟨fsEnd, logsEnd⟩, hr⟩ := hok
  simp [mainAfterAnalyze, hne, hconf, hr, send_notification]

/-- Witness for `mainAfterAnalyze_transport_error_exit1` on a one-item
plan with Gotify configured and an unreachable server. -/
theorem mainAfterAnalyze_transport_error_exit1_witness :
    (wItems9.isEmpty = false ∧
     (pyTruthy (some "http://gotify".data) && pyTruthy (some "token".data)) = true ∧
     ∃ r : DelFS × List PyStr, delete_files wMap wFS9 wItems9 = .ok r) ∧
    (mainAfterAnalyze wMap wFS9 wItems9 false
      (some "http://gotify".data) (some "token".data) (.error "ConnectionError".data)).1 = 1 :=
  ⟨⟨by decide, by decide, ⟨(wFS9, [failedMsg "D: x, Size: s GiB, Modified: t".data "OSError".data]),
      rfl⟩⟩,
    mainAfterAnalyze_transport_error_exit1 wMap wFS9 wItems9
      (some "http://gotify".data) (some "token".data) "ConnectionError".data
      (by decide) (by decide)
      ⟨(wFS9, [failedMsg "D: x, Size: s GiB, Modified: t".data "OSError".data]), rfl⟩⟩

theorem gatherAll_eq_nil (gather : PyStr → List Entry) :
    ∀ (dirs : List PyStr), (∀ d ∈ dirs, gather d = []) → gatherAll gather dirs = [] := by
  have haux : ∀ (dirs : List PyStr) (acc : List Entry), (∀ d ∈ dirs, gather d = []) →
      dirs.foldl (fun a dirPath => a ++ gather dirPath) acc = acc := by
    intro dirs
    induction dirs with
    | nil => intro acc _; rfl
    | cons d rest ih =>
      intro acc h
      simp only [List.foldl]
      rw [h d (List.mem_cons_self d rest), List.append_nil]
      exact ih acc (fun x hx => h x (List.mem_cons_of_mem _ hx))
  intro dirs h
  exact haux dirs [] h

/-- C10 (implicit): below-threshold free space with an empty gathered
inventory makes `analyze` return `[]` - the same value as every
free-space-sufficient run - and `main` then logs the below-threshold
message and returns exit status 0 (whatever the Gotify configuration and
transport outcome, since the empty-plan branch returns before any
notification code is reachable), so the caller cannot tell the unmet
threshold from the satisfied one. -/
theorem analyze_empty_inventory_indistinguishable
    (gather : PyStr → List Entry) (dirs : List PyStr)
    (labelMapping : List (PyStr × PyStr))
    (renderSize : Nat → PyStr) (renderTime : Int → PyStr)
    (freeSpace threshold : Int) (fs : DelFS) (dryRun : Bool)
    (gotifyUrl gotifyToken : Option PyStr) (transport : Except PyStr Bool)
    (hlow : freeSpace < threshold)
    (hempty : ∀ d ∈ dirs, gather d = []) :
    analyze gather dirs labelMapping renderSize renderTime freeSpace threshold = [] ∧
    (∀ freeSpace2 threshold2 : Int, threshold2 ≤ freeSpace2 →
      analyze gather dirs labelMapping renderSize renderTime freeSpace threshold
        = analyze gather dirs labelMapping renderSize renderTime freeSpace2 threshold2) ∧
    mainAfterAnalyze labelMapping fs
      (analyze gather dirs labelMapping renderSize renderTime freeSpace threshold) dryRun
      gotifyUrl gotifyToken transport
      = (0, [belowThresholdMsg]) := by
  have h0 : analyze gather dirs labelMapping renderSize renderTime freeSpace threshold = [] := by
    simp only [analyze]
    rw [if_neg (by omega), gatherAll_eq_nil gather dirs hempty]
    rfl
  refine ⟨h0, ?_, ?_⟩
  · intro freeSpace2 threshold2 h2
    rw [h0]
    simp [analyze, ge_iff_le, h2]
  · rw [h0]
    rfl

/-- Witness for `analyze_empty_inventory_indistinguishable`: free space 0,
threshold 5, nothing gathered, Gotify unconfigured. -/
theorem analyze_empty_inventory_indistinguishable_witness :
    ((0 : Int) < 5 ∧ ∀ d ∈ wDirs, wGatherE d = []) ∧
    (analyze wGatherE wDirs wMap wSize wTime 0 5 = [] ∧
     (∀ freeSpace2 threshold2 : Int, threshold2 ≤ freeSpace2 →
       analyze wGatherE wDirs wMap wSize wTime 0 5
         = analyze wGatherE wDirs wMap wSize wTime freeSpace2 threshold2) ∧
     mainAfterAnalyze wMap wFS9 (analyze wGatherE wDirs wMap wSize wTime 0 5) false
       none none (.ok true)
       = (0, [belowThresholdMsg])) :=
  ⟨⟨by decide, by decide⟩,
    analyze_empty_inventory_indistinguishable wGatherE wDirs wMap wSize wTime 0 5 wFS9 false
      none none (.ok true) (by decide) (by decide)⟩

/-- C5 counterexample: the file name `a, b` under root `/d` labelled `D`
formats to `D: a, b, Size: s GiB, Modified: t`, which the Deleter parses
back as name `a` (the split on `", "` cuts inside the file name), so the
recovered pair resolves to `/d/a` instead of the original `/d/a, b`: the
descriptor is not unambiguously parseable for every possible file name. -/
theorem descriptor_roundtrip_cex :
    parseDescriptor (format_items wMap wSize wTime ⟨"/d/a, b".data, 5, 0⟩)
      = some ("D".data, "a".data) ∧
    resolveTarget wMap "D".data "a".data = some "/d/a".data ∧
    ("/d/a".data : PyStr) ≠ "/d/a, b".data := by
  refine ⟨by decide, by decide, by decide⟩

/-- C5 amended: the round-trip holds for separator-free fields: when the
final component `name` of the normalized entry path contains no `": "`
(also not straddling into the following `", Size:"` text) and no `", "`
and does not end in `','`, the assigned label contains no `": "` and does
not end in `':'`, and the first watched root of the label map carrying
the assigned label is the root `root` the entry came from (with
`item.path = os.path.join(root, name)`), then `delete_files`'s parse
recovers exactly `(label, name)` and re-joining against the label map
resolves to the entry's original source path. -/
theorem descriptor_roundtrip_amended
    (labelMapping : List (PyStr × PyStr))
    (renderSize : Nat → PyStr) (renderTime : Int → PyStr)
    (item : Entry) (root label name : PyStr)
    (hlast : (pySplitOn ['/'] (normpath item.path)).getLastD [] = name)
    (hlabel : assignLabel labelMapping (normpath item.path) = label)
    (hlabelClean : pyContains colonSep (label ++ [':']) = false)
    (hnameColon : pyContains colonSep ((name ++ ", Size".data) ++ [':']) = false)
    (hnameComma : pyContains commaSep (name ++ [',']) = false)
    (hfirst : findDirByLabel labelMapping label = some root)
    (horig : item.path = pyJoin root name) :
    parseDescriptor (format_items labelMapping renderSize renderTime item)
      = some (label, name) ∧
    resolveTarget labelMapping label name = some item.path := by
  constructor
  · have hmsg : format_items labelMapping renderSize renderTime item
        = label ++ ((':' :: [' ']) ++
            (name ++ (", Size: ".data
              ++ (renderSize item.size
                ++ (" GiB, Modified: ".data ++ renderTime item.mtime))))) := by
      simp only [format_items, colonSep, hlabel, hlast, List.append_assoc]
    have hrest1 : (name ++ (", Size: ".data ++ (renderSize item.size
          ++ (" GiB, Modified: ".data ++ renderTime item.mtime))) : PyStr)
        = (name ++ ", Size".data) ++ ((':' :: [' ']) ++ (renderSize item.size
          ++ (" GiB, Modified: ".data ++ renderTime item.mtime))) := by
      rw [show (", Size: ".data : PyStr) = ", Size".data ++ (':' :: [' ']) from rfl]
      simp only [List.append_assoc]
    have hsplit1 : pySplitOn colonSep (format_items labelMapping renderSize renderTime item)
        = label :: (name ++ ", Size".data)
            :: pySplit ':' [' '] (renderSize item.size
                ++ (" GiB, Modified: ".data ++ renderTime item.mtime)) := by
      rw [pySplitOn_colonSep_eq, hmsg,
        pySplit_boundary_assoc ':' [' '] label _ hlabelClean, hrest1,
        pySplit_boundary_assoc ':' [' '] (name ++ ", Size".data) _ hnameColon]
    have hname2 : (pySplitOn commaSep (name ++ ", Size".data)).headD [] = name := by
      have e3 : (", Size".data : PyStr) = (',' :: [' ']) ++ "Size".data := rfl
      rw [pySplitOn_commaSep_eq, e3,
        pySplit_boundary_assoc ',' [' '] name ("Size".data) hnameComma]
      rfl
    simp only [parseDescriptor, hsplit1, hname2]
  · simp [resolveTarget, hfirst, horig]

/-- Witness for `descriptor_roundtrip_amended` with the clean name `x`
under root `/d` labelled `D`. -/
theorem descriptor_roundtrip_amended_witness :
    ((pySplitOn ['/'] (normpath ("/d/x".data : PyStr))).getLastD [] = "x".data ∧
     assignLabel wMap (normpath ("/d/x".data : PyStr)) = "D".data ∧
     pyContains colonSep ("D".data ++ [':']) = false ∧
     pyContains colonSep (("x".data ++ ", Size".data) ++ [':']) = false ∧
     pyContains commaSep ("x".data ++ [',']) = false ∧
     findDirByLabel wMap "D".data = some "/d".data ∧
     ("/d/x".data : PyStr) = pyJoin "/d".data "x".data) ∧
    (parseDescriptor (format_items wMap wSize wTime ⟨"/d/x".data, 5, 0⟩)
      = some ("D".data, "x".data) ∧
     resolveTarget wMap "D".data "x".data = some ("/d/x".data : PyStr)) :=
  ⟨⟨by decide, by decide, by decide, by decide, by decide, by decide, by decide⟩,
    descriptor_roundtrip_amended wMap wSize wTime ⟨"/d/x".data, 5, 0⟩ "/d".data "D".data "x".data
      (by decide) (by decide) (by decide) (by decide) (by decide) (by decide) (by decide)⟩
